import Mathlib

/-
Verification of the git-mcp-server operation orchestration layer.

The development shallowly embeds the `git_reword` tool logic
(`src/mcp-server/tools/gitReword/logic.ts`, function `rewordGitCommit`),
its registration wrapper (`registration.ts`), and the `git_stash`
registration wrapper.  Subprocess execution (`execAsync` over
`child_process.exec`) is modelled by an environment mapping each command
the module builds to an outcome; the module's command strings are kept
verbatim in `GitCmd.render`.
-/

/-- JS truthiness fallback `a || b` for strings: the empty string is falsy. -/
def jsOr (a b : String) : String :=
  if a = "" then b else a

/-- JS `a || b` where `a : string | undefined`. -/
def jsOrO : Option String → String → String
  | some s, b => jsOr s b
  | none, b => b

/-- Decidable model of JS `String.prototype.startsWith` on char lists:
`charsStartWith s pat` holds when `pat` is an initial segment of `s`. -/
def charsStartWith : List Char → List Char → Bool
  | _, [] => true
  | [], _ :: _ => false
  | c :: cs, p :: ps => c = p && charsStartWith cs ps

/-- Decidable model of JS `String.prototype.includes` on char lists. -/
def charsContain : List Char → List Char → Bool
  | [], pat => pat.isEmpty
  | c :: cs, pat => charsStartWith (c :: cs) pat || charsContain cs pat

/-- JS `s.includes(sub)`: substring containment test. -/
def strIncludes (s sub : String) : Bool :=
  charsContain s.data sub.data

/-- Substring containment stated as a decomposition, used to express the
spec-level sentence that one string "contains" another. -/
def strHasSub (s sub : String) : Prop :=
  ∃ a b, s = a ++ (sub ++ b)

/-- JS `s.trim()`: strip whitespace from both ends (modelled over the
character list, with ASCII whitespace). -/
def jsTrim (s : String) : String :=
  String.mk (((s.data.dropWhile Char.isWhitespace).reverse.dropWhile Char.isWhitespace).reverse)

/-- Trailing-whitespace normalization: strip whitespace from the end
only. -/
def jsTrimEnd (s : String) : String :=
  String.mk ((s.data.reverse.dropWhile Char.isWhitespace).reverse)

/-- JS `s.toLowerCase()` (modelled over the character list). -/
def jsToLower (s : String) : String :=
  String.mk (s.data.map Char.toLower)

/-- JS `s.split("\n")` on a character list: split at every newline,
keeping empty segments, never returning an empty list. -/
def splitOnNl : List Char → List (List Char)
  | [] => [[]]
  | c :: cs =>
    let r := splitOnNl cs
    if c = '\n' then [] :: r
    else match r with
      | [] => [[c]]
      | h :: t => (c :: h) :: t

/-- JS `s.split("\n")`. -/
def jsSplitNl (s : String) : List String :=
  (splitOnNl s.data).map String.mk

/-- JS `arr.join("\n")`. -/
def joinNl : List String → String
  | [] => ""
  | [s] => s
  | s :: t :: rest => s ++ "\n" ++ joinNl (t :: rest)

/-- Input shape produced by `GitRewordInputSchema` after zod validation:
`path` has been defaulted (so it is always present), `commitHash` stays
optional, `newMessage` is required. -/
structure GitRewordInput where
  path : String
  commitHash : Option String
  newMessage : String
  deriving DecidableEq

/-- A raw (pre-validation) `git_reword` request: `path` and `commitHash`
may be absent. -/
structure RawGitRewordInput where
  path : Option String
  commitHash : Option String
  newMessage : String
  deriving DecidableEq

/-- Zod validation of `GitRewordInputSchema`: `.min(1)` rejects supplied
empty strings, `.optional().default(".")` fills an absent `path` with
`"."`, `commitHash` stays optional, `newMessage` must be non-empty. -/
def parseGitRewordInput (raw : RawGitRewordInput) : Option GitRewordInput :=
  if raw.path = some "" then none
  else if raw.commitHash = some "" then none
  else if raw.newMessage = "" then none
  else some { path := raw.path.getD ".", commitHash := raw.commitHash, newMessage := raw.newMessage }

/-- The four subprocess invocations `rewordGitCommit` can build.  Each
constructor records the interpolated pieces; `GitCmd.render` recovers the
exact command string the source hands to `exec`. -/
inductive GitCmd where
  | log1B (path ref : String)
  | commitAmend (path msg : String)
  | revParseParent (path ref : String)
  | log1HB (path : String)
  deriving DecidableEq

/-- The exact template-literal command strings from the source.  Note the
whole command is a single string handed to `child_process.exec`, which
runs it through a shell: the interpolated pieces are not discrete argv
elements. -/
def GitCmd.render : GitCmd → String
  | .log1B p ref => "git -C \"" ++ p ++ "\" log -1 --pretty=format:%B " ++ ref
  | .commitAmend p m => "git -C \"" ++ p ++ "\" commit --amend -m \"" ++ m ++ "\""
  | .revParseParent p ref => "git -C \"" ++ p ++ "\" rev-parse " ++ ref ++ "^"
  | .log1HB p => "git -C \"" ++ p ++ "\" log -1 --pretty=format:%H%n%B"

/-- Which of the module's commands rewrite commit history: `commit
--amend` replaces the tip commit; `log` and `rev-parse` only read the
object database and refs. -/
def GitCmd.mutatesHistory : GitCmd → Bool
  | .commitAmend _ _ => true
  | _ => false

/-- Successful `execAsync` result: captured stdout and stderr. -/
structure ExecOk where
  stdout : String
  stderr : String
  deriving DecidableEq

/-- Error thrown by `execAsync` (non-zero exit or spawn failure): Node
attaches `stderr`, `stdout` and `message` to the error object. -/
structure ExecErr where
  stderr : String
  stdout : String
  message : String
  deriving DecidableEq

/-- The `BaseErrorCode` members the reword module uses. -/
inductive BaseErrorCode where
  | NOT_FOUND
  | VALIDATION_ERROR
  | INTERNAL_ERROR
  deriving DecidableEq

/-- `McpError` as the module constructs it: an error code plus message. -/
structure McpError where
  code : BaseErrorCode
  message : String
  deriving DecidableEq

/-- Values the outer `catch (error: any)` block can receive: an
`execAsync` error, a thrown `McpError`, or an `fs` error (which carries
only a `message`). -/
inductive Thrown where
  | exec (e : ExecErr)
  | mcp (e : McpError)
  | fs (message : String)

/-- The catch block's `error.stderr || error.stdout || error.message || ""`:
for an exec error the first non-empty of stderr, stdout, message; for a
thrown `McpError` or fs error, `stderr`/`stdout` are `undefined` (falsy)
so only the message remains. -/
def thrownText : Thrown → String
  | .exec e => jsOr e.stderr (jsOr e.stdout e.message)
  | .mcp e => e.message
  | .fs m => m

/-- The outer catch block of `rewordGitCommit` (source lines 181-212):
case-insensitive match for "not a git repository", case-sensitive match
for "no changes", otherwise a generic INTERNAL_ERROR wrap. -/
def classifyRewordError (t : Thrown) (targetPath : String) : McpError :=
  let errorMessage := thrownText t
  if strIncludes (jsToLower errorMessage) "not a git repository" then
    { code := .NOT_FOUND, message := "Path is not a Git repository: " ++ targetPath }
  else if strIncludes errorMessage "no changes" then
    { code := .VALIDATION_ERROR,
      message := "No changes to commit. Ensure there are staged changes if trying to amend, or specify a commit hash to reword a specific commit." }
  else
    { code := .INTERNAL_ERROR, message := "Failed to reword commit. Error: " ++ errorMessage }

/-- The environment the operation runs against: the git subprocess (keyed
by the structured command, see `GitCmd.render` for the exact strings),
the filesystem write used for the temp message file, the imported
`sanitization.sanitizePath` utility (outside the embedded sources, kept
uninterpreted), and `Date.now()`. -/
structure GitEnv where
  exec : GitCmd → Except ExecErr ExecOk
  fsWrite : String → String → Except String Unit
  sanitizePath : String → String
  now : Nat

/-- Override the environment's answer for one command. -/
def GitEnv.withExec (env : GitEnv) (c0 : GitCmd) (r : Except ExecErr ExecOk) : GitEnv :=
  { env with exec := fun c => if c = c0 then r else env.exec c }

/-- The per-request context: `context.getWorkingDirectory()` returns the
session's remembered working directory, when one was set. -/
structure RewordContext where
  getWorkingDirectory : Option String

/-- The argument handed to `sanitizePath` (source line 51):
`input.path || context.getWorkingDirectory() || "."`. -/
def rewordTargetArg (input : GitRewordInput) (ctx : RewordContext) : String :=
  jsOr input.path (jsOrO ctx.getWorkingDirectory ".")

/-- Best-effort read of the target's original message (source lines
59-71): on success the trimmed stdout, on failure a warning is logged and
the empty string substituted. -/
def rewordOriginalMessage (targetPath commitRef : String) (env : GitEnv) : String :=
  match env.exec (.log1B targetPath commitRef) with
  | .ok r => jsTrim r.stdout
  | .error _ => ""

/-- Source line 74, `input.newMessage.replace(/"/g, '\"')`: in JS the
replacement literal `'\"'` denotes the one-character string `"`, so every
double-quote character is replaced by a double-quote character. -/
def sanitizeNewMessage (s : String) : String :=
  String.mk (s.data.map fun c => if c = '"' then '"' else c)

/-- The read-back parse (source lines 159-163): trim the
`%H%n%B`-formatted log output, split on newlines, first line is the hash,
the rest re-joined is the message. -/
def parseReadBack (out : String) : String × String :=
  let parts := jsSplitNl (jsTrim out)
  (parts.headD "", joinNl parts.tail)

/-- The remediation text template (source lines 114-125), with the
commit reference, target path, parent hash and sanitized message
interpolated. -/
def mkRebaseInstructions (commitRef targetPath parentCommit sanitizedNewMessage : String) : String :=
  "To reword commit " ++ commitRef ++
  ", run the following commands:\n\n1. Start interactive rebase: git -C \"" ++ targetPath ++
  "\" rebase -i " ++ parentCommit ++
  "\n2. In the editor, change 'pick' to 'reword' for commit " ++ commitRef ++
  "\n3. Save and close the editor\n4. When the rebase stops for the reword, the commit message editor will open\n5. Replace the message with: " ++ sanitizedNewMessage ++
  "\n6. Save and close the editor\n7. The rebase will continue automatically\n\nAlternatively, you can use this one-liner (but be careful):\necho '" ++ sanitizedNewMessage ++
  "' > /tmp/new_message && git -C \"" ++ targetPath ++
  "\" rebase -i " ++ parentCommit ++
  " --exec 'git commit --amend -F /tmp/new_message'"

/-- `GitRewordResult` (source lines 33-40): optional fields are absent in
some returns, modelled with `Option`. -/
structure GitRewordResult where
  success : Bool
  message : String
  originalMessage : Option String
  newMessage : Option String
  hash : Option String
  rebaseInstructions : Option String
  deriving DecidableEq

/-- The `rewordGitCommit` operation (source lines 42-213).  Returns the
settled JS promise (a result, or the thrown `McpError`) together with the
trace of git subprocess invocations, in order.  All thrown errors -
including the module's own `McpError` for an unresolvable parent - pass
through the outer catch block (`classifyRewordError`), exactly as in the
source, where the catch encloses the whole body.  The dead local
`rebaseCommand` of source line 110 (built but never executed) is omitted;
the temp-file unlink (best-effort, `.catch(() => ..)`) has no observable
effect and is omitted likewise. -/
def rewordGitCommit (input : GitRewordInput) (ctx : RewordContext) (env : GitEnv) :
    Except McpError GitRewordResult × List GitCmd :=
  let targetPath := env.sanitizePath (rewordTargetArg input ctx)
  let commitRef := jsOrO input.commitHash "HEAD"
  let originalMessage := rewordOriginalMessage targetPath commitRef env
  let sanitizedNewMessage := sanitizeNewMessage input.newMessage
  if commitRef = "HEAD" then
    match env.exec (.commitAmend targetPath sanitizedNewMessage) with
    | .error e =>
      (.error (classifyRewordError (.exec e) targetPath),
       [.log1B targetPath commitRef, .commitAmend targetPath sanitizedNewMessage])
    | .ok _ =>
      match env.exec (.log1HB targetPath) with
      | .error e =>
        (.error (classifyRewordError (.exec e) targetPath),
         [.log1B targetPath commitRef, .commitAmend targetPath sanitizedNewMessage,
          .log1HB targetPath])
      | .ok r2 =>
        let parsed := parseReadBack r2.stdout
        (.ok { success := true
               message := "Commit message reworded successfully."
               originalMessage := some originalMessage
               newMessage := some parsed.2
               hash := some parsed.1
               rebaseInstructions := none },
         [.log1B targetPath commitRef, .commitAmend targetPath sanitizedNewMessage,
          .log1HB targetPath])
  else
    match env.exec (.revParseParent targetPath commitRef) with
    | .error _ =>
      (.error (classifyRewordError
          (.mcp { code := .VALIDATION_ERROR
                  message := "Could not find parent commit for " ++ commitRef ++
                    ". This might be the root commit or an invalid commit hash." })
          targetPath),
       [.log1B targetPath commitRef, .revParseParent targetPath commitRef])
    | .ok rp =>
      let parentCommit := jsTrim rp.stdout
      let tempMessageFile := targetPath ++ "/.git-reword-message-" ++ toString env.now
      match env.fsWrite tempMessageFile sanitizedNewMessage with
      | .error m =>
        (.error (classifyRewordError (.fs m) targetPath),
         [.log1B targetPath commitRef, .revParseParent targetPath commitRef])
      | .ok _ =>
        (.ok { success := false
               message := "Rewording commit " ++ commitRef ++ " requires an interactive rebase."
               originalMessage := some originalMessage
               newMessage := some sanitizedNewMessage
               hash := some commitRef
               rebaseInstructions := some
                 (mkRebaseInstructions commitRef targetPath parentCommit sanitizedNewMessage) },
         [.log1B targetPath commitRef, .revParseParent targetPath commitRef])

/-- Outcome equivalence for two settled runs: same thrown error, or same
result up to the best-effort `originalMessage` field. -/
def sameOutcome : Except McpError GitRewordResult → Except McpError GitRewordResult → Prop
  | .ok a, .ok b =>
    a.success = b.success ∧ a.message = b.message ∧ a.newMessage = b.newMessage ∧
    a.hash = b.hash ∧ a.rebaseInstructions = b.rebaseInstructions
  | .error e1, .error e2 => e1 = e2
  | _, _ => False

/-- `GetWorkingDirectoryFn` from the registration modules: session id to
remembered working directory. -/
def GetWorkingDirectoryFn : Type :=
  Option String → Option String

/-- The request context consumed by `GetSessionIdFn` (only its shape
matters here). -/
structure RequestContextModel where
  operation : String

/-- `GetSessionIdFn` from the registration modules. -/
def GetSessionIdFn : Type :=
  RequestContextModel → Option String

/-- The module-level accessor state of a registration module
(`_getWorkingDirectory` / `_getSessionId`). -/
structure ToolRegState where
  getWorkingDirectory : Option GetWorkingDirectoryFn
  getSessionId : Option GetSessionIdFn

/-- Before any initialize call both module-level accessors are
`undefined`. -/
def initialToolRegState : ToolRegState :=
  { getWorkingDirectory := none, getSessionId := none }

/-- `initializeGitRewordStateAccessors`: stores both accessors. -/
def initializeGitRewordStateAccessors (getWdFn : GetWorkingDirectoryFn)
    (getSidFn : GetSessionIdFn) (s : ToolRegState) : ToolRegState :=
  { s with getWorkingDirectory := some getWdFn, getSessionId := some getSidFn }

/-- `initializeGitStashStateAccessors`: stores both accessors. -/
def initializeGitStashStateAccessors (getWdFn : GetWorkingDirectoryFn)
    (getSidFn : GetSessionIdFn) (s : ToolRegState) : ToolRegState :=
  { s with getWorkingDirectory := some getWdFn, getSessionId := some getSidFn }

/-- `registerGitRewordTool` guard (registration.ts lines 48-55): throws
when either accessor is still unset; otherwise registration proceeds and
the tool named `git_reword` is registered with the server
(modelled as the `Except.ok` value). -/
def registerGitRewordTool (s : ToolRegState) : Except String String :=
  if s.getWorkingDirectory.isNone || s.getSessionId.isNone then
    Except.error "State accessors for git_reword must be initialized before registration."
  else
    Except.ok "git_reword"

/-- `registerGitStashTool` guard (gitStash/registration.ts lines 59-66):
same shape as the reword registration. -/
def registerGitStashTool (s : ToolRegState) : Except String String :=
  if s.getWorkingDirectory.isNone || s.getSessionId.isNone then
    Except.error "State accessors for git_stash must be initialized before registration."
  else
    Except.ok "git_stash"

/-- The spec's closed error taxonomy for the stash dispatcher. -/
inductive StashErrorKind where
  | NotAGitRepository
  | InvalidReference
  | NoChangesToCommit
  | MergeConflict
  | PermissionDenied
  | Unknown
  deriving DecidableEq

/-- `ConflictDescriptor`: a conflicted repository-relative path plus the
conflict kind (content, add-add, delete-modify, rename). -/
structure ConflictDescriptor where
  filePath : String
  kind : String
  deriving DecidableEq

/-- A finished subprocess invocation as seen by the stash dispatcher. -/
structure CommandOutcome where
  exitCode : Int
  stdout : String
  stderr : String

/-- The stash dispatcher's result shape: `errorKind` is optional, and
`conflicts` is populated only by apply/pop conflict detection. -/
structure GitStashResult where
  success : Bool
  message : String
  errorKind : Option StashErrorKind
  conflicts : List ConflictDescriptor
  deriving DecidableEq

/-- The two stash modes with conflict detection. -/
inductive StashApplyMode where
  | apply
  | pop

/-- Modelled from the spec: the gitStash logic module
(`src/mcp-server/tools/gitStash/logic.ts`) is not among the provided
sources (only its registration wrapper is), so the ErrorClassifier rule
table of spec section 4.3 is used: case-insensitive substring matching,
checked top to bottom, first match wins, unmatched text resolves to
`Unknown` without throwing. -/
def classifyStashError (text : String) : StashErrorKind :=
  let t := jsToLower text
  if strIncludes t "not a git repository" then .NotAGitRepository
  else if strIncludes t "no changes" then .NoChangesToCommit
  else if strIncludes t "unknown revision" || strIncludes t "bad revision" ||
      strIncludes t "ambiguous argument" then .InvalidReference
  else if strIncludes t "conflict" then .MergeConflict
  else if strIncludes t "permission denied" then .PermissionDenied
  else .Unknown

/-- Modelled from the spec: per-line parse of git's conflict markers into
a `ConflictDescriptor` (gitStash logic.ts is not among the provided
sources).  Lines of the form `CONFLICT (content): Merge conflict in
<path>` (and the add/add variant) carry the repository-relative path as
the remainder of the line; for the modify/delete and rename variants the
path is the first token after the marker. -/
def parseConflictLine (line : String) : Option ConflictDescriptor :=
  if charsStartWith line.data "CONFLICT (content): Merge conflict in ".data then
    some { filePath := String.mk (line.data.drop 38), kind := "content" }
  else if charsStartWith line.data "CONFLICT (add/add): Merge conflict in ".data then
    some { filePath := String.mk (line.data.drop 38), kind := "add-add" }
  else if charsStartWith line.data "CONFLICT (modify/delete): ".data then
    some { filePath := String.mk ((line.data.drop 26).takeWhile fun c => c != ' '),
           kind := "delete-modify" }
  else if charsStartWith line.data "CONFLICT (rename/rename): ".data then
    some { filePath := String.mk ((line.data.drop 26).takeWhile fun c => c != ' '),
           kind := "rename" }
  else none

/-- Modelled from the spec: conflict detection scans every line of the
combined output for conflict markers. -/
def detectStashConflicts (combinedOutput : String) : List ConflictDescriptor :=
  (jsSplitNl combinedOutput).filterMap parseConflictLine

/-- Modelled from the spec (section 4.5, gitStash logic.ts not among the
provided sources): after an apply/pop invocation the dispatcher inspects
combined stdout/stderr for conflict markers; if any are found it returns
`success=false` with `conflicts` populated and no `errorKind`; otherwise
a zero exit is a success and a non-zero exit is a hard failure carrying a
classified `errorKind`. -/
def gitStashApplyPop (mode : StashApplyMode) (outcome : CommandOutcome) : GitStashResult :=
  let conflicts := detectStashConflicts (outcome.stdout ++ "\n" ++ outcome.stderr)
  if conflicts.isEmpty then
    if outcome.exitCode = 0 then
      { success := true
        message := (match mode with
          | .apply => "Stash applied successfully."
          | .pop => "Stash popped successfully.")
        errorKind := none
        conflicts := [] }
    else
      { success := false
        message := "Stash operation failed."
        errorKind := some (classifyStashError (outcome.stderr ++ outcome.stdout))
        conflicts := [] }
  else
    { success := false
      message := "Stash operation completed with conflicts that must be resolved manually."
      errorKind := none
      conflicts := conflicts }

/-- The quote-replacement of source line 74 replaces every double quote
by a double quote: it is the identity on every message. -/
theorem sanitizeNewMessage_id (s : String) : sanitizeNewMessage s = s := by
  have hf : ∀ l : List Char, (l.map fun c => if c = '"' then '"' else c) = l := by
    intro l
    induction l with
    | nil => rfl
    | cons a t ih =>
      simp only [List.map_cons, ih]
      by_cases h : a = '"' <;> simp [h]
  unfold sanitizeNewMessage
  rw [hf s.data]

theorem strHasSub_self (s : String) : strHasSub s s :=
  ⟨"", "", by simp⟩

theorem strHasSub_appL (a : String) {s sub : String} (h : strHasSub s sub) :
    strHasSub (a ++ s) sub := by
  obtain ⟨x, y, rfl⟩ := h
  exact ⟨a ++ x, y, by rw [String.append_assoc]⟩

theorem strHasSub_appR (b : String) {s sub : String} (h : strHasSub s sub) :
    strHasSub (s ++ b) sub := by
  obtain ⟨x, y, rfl⟩ := h
  exact ⟨x, y ++ b, by simp [String.append_assoc]⟩

theorem mkRebaseInstructions_ne_empty (r p pc m : String) :
    mkRebaseInstructions r p pc m ≠ "" := by
  intro h
  have hl := congrArg String.length h
  simp only [mkRebaseInstructions, String.length_append] at hl
  have h17 : ("To reword commit " : String).length = 17 := rfl
  have h0 : ("" : String).length = 0 := rfl
  omega

/-- C1: REFUTED (code bug).  The claim states every git invocation passes
its arguments as a discrete argv vector and never concatenates
user-supplied strings into a shell-interpreted command string.  The
source instead hands `child_process.exec` a single interpolated string
(`GitCmd.render` is the verbatim template), and the only "escaping" of
the user-controlled message, `replace(/"/g, '\"')`, is the identity
because the JS literal `'\"'` denotes `"`.  The message is thus embedded
verbatim inside the shell string, and the concrete instance shows a
message whose double quote escapes the intended quoting. -/
theorem rewordGitCommit_builds_shell_strings :
    (∀ s, sanitizeNewMessage s = s) ∧
    (∀ p m, GitCmd.render (GitCmd.commitAmend p (sanitizeNewMessage m)) =
      "git -C \"" ++ p ++ "\" commit --amend -m \"" ++ m ++ "\"") ∧
    GitCmd.render (GitCmd.commitAmend "repo" (sanitizeNewMessage "pwn\"; rm -rf ~; echo \"")) =
      "git -C \"repo\" commit --amend -m \"pwn\"; rm -rf ~; echo \"\"" := by
  refine ⟨sanitizeNewMessage_id, fun p m => ?_, ?_⟩
  · rw [sanitizeNewMessage_id]
    rfl
  · rw [sanitizeNewMessage_id]
    rfl

/-- C10: CONFIRMED.  Calling either register function on the initial
(uninitialized) accessor state throws the corresponding error and
registers nothing; after `initialize...StateAccessors` has run,
registration proceeds and registers the tool. -/
theorem registration_requires_initialized_accessors :
    (registerGitRewordTool initialToolRegState =
      Except.error "State accessors for git_reword must be initialized before registration.") ∧
    (registerGitStashTool initialToolRegState =
      Except.error "State accessors for git_stash must be initialized before registration.") ∧
    (∀ f g s, registerGitRewordTool (initializeGitRewordStateAccessors f g s) =
      Except.ok "git_reword") ∧
    (∀ f g s, registerGitStashTool (initializeGitStashStateAccessors f g s) =
      Except.ok "git_stash") :=
  ⟨rfl, rfl, fun _ _ _ => rfl, fun _ _ _ => rfl⟩

/-- C4: REFUTED (code bug).  The claim (and the schema's own description)
says a request without a path falls back to the session's remembered
working directory.  But zod fills an absent `path` with the default "."
during validation, so `input.path || getWorkingDirectory() || "."`
always takes `input.path`: with no requested path and a session working
directory of "/repo/project", the argument resolved for git is "." (the
process's current directory), not the session directory. -/
theorem rewordPath_session_fallback_shadowed :
    (parseGitRewordInput { path := none, commitHash := none, newMessage := "feat: x" } =
      some { path := ".", commitHash := none, newMessage := "feat: x" }) ∧
    (rewordTargetArg { path := ".", commitHash := none, newMessage := "feat: x" }
      { getWorkingDirectory := some "/repo/project" } = ".") ∧
    ("." : String) ≠ "/repo/project" := by
  refine ⟨rfl, rfl, by decide⟩

/-- C5 counterexample: the claim says matching is case-insensitive and in
particular "no changes" in any letter case classifies as
NoChangesToCommit (VALIDATION_ERROR with the no-changes message).  But
the source lowercases the text only for the "not a git repository" rule
and checks `includes("no changes")` on the original text: a failure whose
stderr is "NO CHANGES" falls through to the generic INTERNAL_ERROR
(Unknown) wrap. -/
theorem classifyRewordError_upper_no_changes_unknown :
    classifyRewordError (Thrown.exec { stderr := "NO CHANGES", stdout := "", message := "" }) "." =
      { code := BaseErrorCode.INTERNAL_ERROR
        message := "Failed to reword commit. Error: NO CHANGES" } ∧
    BaseErrorCode.INTERNAL_ERROR ≠ BaseErrorCode.VALIDATION_ERROR := by
  refine ⟨rfl, by decide⟩

/-- C5: CORRECTED.  Amended claim: the classified text is the first
non-empty of stderr, stdout, and the raised error's message, in that
priority order; matching is case-insensitive for "not a git repository"
but case-sensitive for "no changes" (so only a lower-case occurrence
classifies as NoChangesToCommit / VALIDATION_ERROR); any unmatched text
resolves to the generic INTERNAL_ERROR (Unknown) wrap, and
classification is a total function (never throws). -/
theorem classifyRewordError_amended :
    (∀ e : ExecErr,
      (e.stderr ≠ "" → thrownText (Thrown.exec e) = e.stderr) ∧
      (e.stderr = "" → e.stdout ≠ "" → thrownText (Thrown.exec e) = e.stdout) ∧
      (e.stderr = "" → e.stdout = "" → thrownText (Thrown.exec e) = e.message)) ∧
    (∀ t p, strIncludes (jsToLower (thrownText t)) "not a git repository" = true →
      (classifyRewordError t p).code = BaseErrorCode.NOT_FOUND) ∧
    (∀ t p, strIncludes (jsToLower (thrownText t)) "not a git repository" = false →
      strIncludes (thrownText t) "no changes" = true →
      (classifyRewordError t p).code = BaseErrorCode.VALIDATION_ERROR ∧
      (classifyRewordError t p).message =
        "No changes to commit. Ensure there are staged changes if trying to amend, or specify a commit hash to reword a specific commit.") ∧
    (∀ t p, strIncludes (jsToLower (thrownText t)) "not a git repository" = false →
      strIncludes (thrownText t) "no changes" = false →
      (classifyRewordError t p).code = BaseErrorCode.INTERNAL_ERROR ∧
      (classifyRewordError t p).message =
        "Failed to reword commit. Error: " ++ thrownText t) := by
  refine ⟨fun e => ⟨fun h1 => ?_, fun h1 h2 => ?_, fun h1 h2 => ?_⟩,
    fun t p h => ?_, fun t p h1 h2 => ?_, fun t p h1 h2 => ?_⟩
  · simp [thrownText, jsOr, h1]
  · simp [thrownText, jsOr, h1, h2]
  · simp [thrownText, jsOr, h1, h2]
  · simp [classifyRewordError, h]
  · simp [classifyRewordError, h1, h2]
  · simp [classifyRewordError, h1, h2]

theorem classifyRewordError_amended_witness :
    (classifyRewordError
      (Thrown.exec { stderr := "error: no changes added to commit", stdout := "", message := "" })
      ".").code = BaseErrorCode.VALIDATION_ERROR ∧
    (classifyRewordError
      (Thrown.exec { stderr := "", stdout := "", message := "something odd happened" })
      ".").code = BaseErrorCode.INTERNAL_ERROR ∧
    thrownText (Thrown.exec { stderr := "", stdout := "out text", message := "msg" }) = "out text" :=
  ⟨(classifyRewordError_amended.2.2.1 _ "." (by decide) (by decide)).1,
   (classifyRewordError_amended.2.2.2 _ "." (by decide) (by decide)).1,
   (classifyRewordError_amended.1 _).2.1 rfl (by decide)⟩

/-- Environment for the unresolvable-parent run: `git rev-parse <ref>^`
fails, everything else succeeds. -/
def envParentFails : GitEnv :=
  { exec := fun c => match c with
      | GitCmd.revParseParent _ _ =>
        Except.error { stderr := "fatal: bad revision", stdout := "", message := "Command failed" }
      | _ => Except.ok { stdout := "", stderr := "" }
    fsWrite := fun _ _ => Except.ok ()
    sanitizePath := fun p => p
    now := 0 }

/-- C6: REFUTED (code bug).  When the parent of a non-tip target cannot
be resolved, the source constructs an `McpError` with
`VALIDATION_ERROR` (the InvalidReference intent, "might be the root
commit or an invalid commit hash") and throws it - but the throw happens
inside the function's own try block, so the outer catch re-wraps it:
the operation actually fails with `INTERNAL_ERROR` (the Unknown kind),
not the InvalidReference classification the claim describes. -/
theorem reword_unresolvable_parent_internal_error :
    (rewordGitCommit { path := ".", commitHash := some "deadbeef", newMessage := "feat: x" }
        { getWorkingDirectory := none } envParentFails).1 =
      Except.error
        { code := BaseErrorCode.INTERNAL_ERROR
          message := "Failed to reword commit. Error: Could not find parent commit for deadbeef. This might be the root commit or an invalid commit hash." } ∧
    BaseErrorCode.INTERNAL_ERROR ≠ BaseErrorCode.VALIDATION_ERROR := by
  refine ⟨rfl, by decide⟩

/-- C8: CONFIRMED (spec-modelled: the gitStash logic module is not among
the provided sources).  Whenever an apply/pop invocation's combined
output reports conflicting paths, the result has `success=false`, a
non-empty `conflicts` sequence with one descriptor per conflicted
repository-relative path (exactly the parse of the combined output), and
no `errorKind` - an advisory outcome, not a hard failure. -/
theorem gitStashApplyPop_conflicts_advisory (mode : StashApplyMode) (outcome : CommandOutcome)
    (h : detectStashConflicts (outcome.stdout ++ "\n" ++ outcome.stderr) ≠ []) :
    (gitStashApplyPop mode outcome).success = false ∧
    (gitStashApplyPop mode outcome).errorKind = none ∧
    (gitStashApplyPop mode outcome).conflicts =
      detectStashConflicts (outcome.stdout ++ "\n" ++ outcome.stderr) ∧
    (gitStashApplyPop mode outcome).conflicts ≠ [] := by
  have hie : (detectStashConflicts (outcome.stdout ++ "\n" ++ outcome.stderr)).isEmpty = false := by
    cases hd : detectStashConflicts (outcome.stdout ++ "\n" ++ outcome.stderr) with
    | nil => exact absurd hd h
    | cons a t => rfl
  simp only [gitStashApplyPop, hie, Bool.false_eq_true, if_false]
  exact ⟨trivial, trivial, trivial, h⟩

theorem gitStashApplyPop_conflicts_advisory_witness :
    (gitStashApplyPop StashApplyMode.apply
      { exitCode := 1
        stdout := "CONFLICT (content): Merge conflict in src/app.ts"
        stderr := "" }).success = false ∧
    (gitStashApplyPop StashApplyMode.apply
      { exitCode := 1
        stdout := "CONFLICT (content): Merge conflict in src/app.ts"
        stderr := "" }).errorKind = none ∧
    (gitStashApplyPop StashApplyMode.apply
      { exitCode := 1
        stdout := "CONFLICT (content): Merge conflict in src/app.ts"
        stderr := "" }).conflicts = [{ filePath := "src/app.ts", kind := "content" }] := by
  have h := gitStashApplyPop_conflicts_advisory StashApplyMode.apply
    { exitCode := 1
      stdout := "CONFLICT (content): Merge conflict in src/app.ts"
      stderr := "" } (by decide)
  exact ⟨h.1, h.2.1, h.2.2.1.trans (by decide)⟩

/-- C2: CONFIRMED.  For a reword request whose reference is not the tip
and whose parent resolves (and whose temp-file write succeeds), the
operation returns (does not throw: `GitRewordResult` carries no error
kind, hard failures are thrown `McpError`s) `success=false` with a
non-empty remediation procedure string containing both the requested
reference and the requested message. -/
theorem rewordGitCommit_non_head_advisory
    (input : GitRewordInput) (ctx : RewordContext) (env : GitEnv)
    (p ref : String) (rp : ExecOk)
    (hp : p = env.sanitizePath (rewordTargetArg input ctx))
    (href : ref = jsOrO input.commitHash "HEAD")
    (hne : ref ≠ "HEAD")
    (hrev : env.exec (GitCmd.revParseParent p ref) = Except.ok rp)
    (hfs : ∀ f c, env.fsWrite f c = Except.ok ()) :
    (rewordGitCommit input ctx env).1 = Except.ok
      { success := false
        message := "Rewording commit " ++ ref ++ " requires an interactive rebase."
        originalMessage := some (rewordOriginalMessage p ref env)
        newMessage := some input.newMessage
        hash := some ref
        rebaseInstructions := some (mkRebaseInstructions ref p (jsTrim rp.stdout) input.newMessage) } ∧
    mkRebaseInstructions ref p (jsTrim rp.stdout) input.newMessage ≠ "" ∧
    strHasSub (mkRebaseInstructions ref p (jsTrim rp.stdout) input.newMessage) ref ∧
    strHasSub (mkRebaseInstructions ref p (jsTrim rp.stdout) input.newMessage) input.newMessage := by
  subst hp href
  refine ⟨?_, mkRebaseInstructions_ne_empty _ _ _ _, ?_, ?_⟩
  · simp only [rewordGitCommit, if_neg hne, hrev, hfs, sanitizeNewMessage_id]
  · unfold mkRebaseInstructions
    iterate 9 apply strHasSub_appR
    apply strHasSub_appL
    exact strHasSub_self _
  · unfold mkRebaseInstructions
    iterate 5 apply strHasSub_appR
    apply strHasSub_appL
    exact strHasSub_self _

/-- Environment for the non-tip runs: `rev-parse <ref>^` resolves,
everything else succeeds with empty output. -/
def envParentOk : GitEnv :=
  { exec := fun c => match c with
      | GitCmd.revParseParent _ _ => Except.ok { stdout := "cafebabe\n", stderr := "" }
      | _ => Except.ok { stdout := "", stderr := "" }
    fsWrite := fun _ _ => Except.ok ()
    sanitizePath := fun p => p
    now := 0 }

theorem rewordGitCommit_non_head_advisory_witness :
    (rewordGitCommit { path := ".", commitHash := some "d0d0caca", newMessage := "fix: y" }
        { getWorkingDirectory := none } envParentOk).1 =
      Except.ok
        { success := false
          message := "Rewording commit d0d0caca requires an interactive rebase."
          originalMessage := some ""
          newMessage := some "fix: y"
          hash := some "d0d0caca"
          rebaseInstructions := some (mkRebaseInstructions "d0d0caca" "." "cafebabe" "fix: y") } ∧
    strHasSub (mkRebaseInstructions "d0d0caca" "." "cafebabe" "fix: y") "d0d0caca" ∧
    strHasSub (mkRebaseInstructions "d0d0caca" "." "cafebabe" "fix: y") "fix: y" := by
  have h := rewordGitCommit_non_head_advisory
    { path := ".", commitHash := some "d0d0caca", newMessage := "fix: y" }
    { getWorkingDirectory := none } envParentOk "." "d0d0caca"
    { stdout := "cafebabe\n", stderr := "" }
    rfl rfl (by decide) rfl (fun _ _ => rfl)
  exact ⟨h.1.trans rfl, h.2.2.1, h.2.2.2⟩

/-- Environment for the successful HEAD reword: the original-message
read, the amend, and the `%H%n%B` read-back all succeed, the read-back
reporting hash `abc123` and message `feat: x`. -/
def envHeadOk : GitEnv :=
  { exec := fun c => match c with
      | GitCmd.log1B _ _ => Except.ok { stdout := "old message\n", stderr := "" }
      | GitCmd.log1HB _ => Except.ok { stdout := "abc123\nfeat: x\n", stderr := "" }
      | _ => Except.ok { stdout := "", stderr := "" }
    fsWrite := fun _ _ => Except.ok ()
    sanitizePath := fun p => p
    now := 0 }

/-- C3: CONFIRMED.  In a valid repository (the amend and the read-back
both succeed, and git faithfully reports back the amended message - the
read-back parses to the supplied message up to trailing-whitespace
normalization), rewording HEAD with a non-empty message M returns
`success=true` with `newMessage` equal to M up to trailing-whitespace
normalization; the amend command the run issues carries M itself
(second conjunct, the trace). -/
theorem rewordGitCommit_head_success
    (input : GitRewordInput) (ctx : RewordContext) (env : GitEnv)
    (p newHash : String) (r1 r2 : ExecOk)
    (hp : p = env.sanitizePath (rewordTargetArg input ctx))
    (hmsg : input.newMessage ≠ "")
    (hhead : jsOrO input.commitHash "HEAD" = "HEAD")
    (hamend : env.exec (GitCmd.commitAmend p input.newMessage) = Except.ok r1)
    (hread : env.exec (GitCmd.log1HB p) = Except.ok r2)
    (hparse : parseReadBack r2.stdout = (newHash, jsTrimEnd input.newMessage)) :
    (rewordGitCommit input ctx env).1 = Except.ok
      { success := true
        message := "Commit message reworded successfully."
        originalMessage := some (rewordOriginalMessage p "HEAD" env)
        newMessage := some (jsTrimEnd input.newMessage)
        hash := some newHash
        rebaseInstructions := none } ∧
    (rewordGitCommit input ctx env).2 =
      [GitCmd.log1B p "HEAD", GitCmd.commitAmend p input.newMessage, GitCmd.log1HB p] := by
  subst hp
  constructor <;>
    simp only [rewordGitCommit, hhead, sanitizeNewMessage_id, hamend, hread, hparse, reduceIte]

theorem rewordGitCommit_head_success_witness :
    (rewordGitCommit { path := ".", commitHash := none, newMessage := "feat: x" }
        { getWorkingDirectory := none } envHeadOk).1 =
      Except.ok
        { success := true
          message := "Commit message reworded successfully."
          originalMessage := some "old message"
          newMessage := some "feat: x"
          hash := some "abc123"
          rebaseInstructions := none } := by
  have h := rewordGitCommit_head_success
    { path := ".", commitHash := none, newMessage := "feat: x" }
    { getWorkingDirectory := none } envHeadOk "." "abc123"
    { stdout := "", stderr := "" } { stdout := "abc123\nfeat: x\n", stderr := "" }
    rfl (by decide) rfl rfl rfl (by decide)
  exact h.1.trans rfl

/-- C9: CONFIRMED.  A reword request for a non-tip reference never runs a
history-mutating git command: every subprocess invocation in the trace is
a read (`git log` or `git rev-parse`), on every control path (advisory
return or failure), so every ref and commit object is untouched. -/
theorem rewordGitCommit_non_head_readonly
    (input : GitRewordInput) (ctx : RewordContext) (env : GitEnv)
    (hne : jsOrO input.commitHash "HEAD" ≠ "HEAD") :
    ((rewordGitCommit input ctx env).2.all fun c => !c.mutatesHistory) = true := by
  simp only [rewordGitCommit, if_neg hne]
  split
  · rfl
  · split
    · rfl
    · rfl

theorem rewordGitCommit_non_head_readonly_witness :
    ((rewordGitCommit { path := ".", commitHash := some "abc123", newMessage := "m" }
        { getWorkingDirectory := none } envParentOk).2.all fun c => !c.mutatesHistory) = true :=
  rewordGitCommit_non_head_readonly _ _ _ (by decide)

/-- Outcome invariance: two environments that agree on everything except
possibly the original-message read (`log1B`) commands settle every run
with the same outcome (same thrown error, same result up to the
`originalMessage` field): the best-effort read feeds only that field. -/
theorem reword_outcome_ignores_orig (input : GitRewordInput) (ctx : RewordContext)
    (env env2 : GitEnv)
    (hsp : env2.sanitizePath = env.sanitizePath)
    (hfw : env2.fsWrite = env.fsWrite)
    (hnow : env2.now = env.now)
    (hex : ∀ c, (∀ a b, c ≠ GitCmd.log1B a b) → env2.exec c = env.exec c) :
    sameOutcome (rewordGitCommit input ctx env).1 (rewordGitCommit input ctx env2).1 := by
  have hca : ∀ a b, env2.exec (GitCmd.commitAmend a b) = env.exec (GitCmd.commitAmend a b) :=
    fun a b => hex _ (fun _ _ hh => GitCmd.noConfusion hh)
  have hrp : ∀ a b, env2.exec (GitCmd.revParseParent a b) = env.exec (GitCmd.revParseParent a b) :=
    fun a b => hex _ (fun _ _ hh => GitCmd.noConfusion hh)
  have hhb : ∀ a, env2.exec (GitCmd.log1HB a) = env.exec (GitCmd.log1HB a) :=
    fun a => hex _ (fun _ _ hh => GitCmd.noConfusion hh)
  unfold rewordGitCommit
  rw [hsp, hfw, hnow]
  by_cases hh : jsOrO input.commitHash "HEAD" = "HEAD"
  · simp only [hh, reduceIte, hca, hhb]
    split
    · exact rfl
    · split
      · exact rfl
      · exact ⟨rfl, rfl, rfl, rfl, rfl⟩
  · simp only [hh, reduceIte, hrp]
    split
    · exact rfl
    · split
      · exact rfl
      · exact ⟨rfl, rfl, rfl, rfl, rfl⟩

/-- C7: CONFIRMED.  A failure of the best-effort read of the target's
original message never aborts the operation: the run proceeds with an
empty original message, and its outcome (settled result or thrown error,
up to the `originalMessage` field itself) is the same as with an
environment in which that read succeeds (with any output). -/
theorem rewordGitCommit_orig_read_failure_not_fatal
    (input : GitRewordInput) (ctx : RewordContext) (env : GitEnv)
    (p ref : String) (e : ExecErr) (s t : String)
    (hp : p = env.sanitizePath (rewordTargetArg input ctx))
    (href : ref = jsOrO input.commitHash "HEAD")
    (hfail : env.exec (GitCmd.log1B p ref) = Except.error e) :
    rewordOriginalMessage p ref env = "" ∧
    sameOutcome (rewordGitCommit input ctx env).1
      (rewordGitCommit input ctx
        (env.withExec (GitCmd.log1B p ref) (Except.ok { stdout := s, stderr := t }))).1 := by
  constructor
  · unfold rewordOriginalMessage
    rw [hfail]
  · apply reword_outcome_ignores_orig
    · rfl
    · rfl
    · rfl
    · intro c hc
      simp only [GitEnv.withExec]
      exact if_neg (hc p ref)

/-- Environment in which the original-message read fails and everything
else succeeds. -/
def envOrigFails : GitEnv :=
  { exec := fun c => match c with
      | GitCmd.log1B _ _ =>
        Except.error { stderr := "fatal: bad default revision", stdout := "", message := "Command failed" }
      | GitCmd.log1HB _ => Except.ok { stdout := "abc123\nfeat: x\n", stderr := "" }
      | _ => Except.ok { stdout := "", stderr := "" }
    fsWrite := fun _ _ => Except.ok ()
    sanitizePath := fun p => p
    now := 0 }

theorem rewordGitCommit_orig_read_failure_not_fatal_witness :
    rewordOriginalMessage "." "HEAD" envOrigFails = "" ∧
    sameOutcome
      (rewordGitCommit { path := ".", commitHash := none, newMessage := "feat: x" }
        { getWorkingDirectory := none } envOrigFails).1
      (rewordGitCommit { path := ".", commitHash := none, newMessage := "feat: x" }
        { getWorkingDirectory := none }
        (envOrigFails.withExec (GitCmd.log1B "." "HEAD")
          (Except.ok { stdout := "wip\n", stderr := "" }))).1 :=
  rewordGitCommit_orig_read_failure_not_fatal
    { path := ".", commitHash := none, newMessage := "feat: x" }
    { getWorkingDirectory := none } envOrigFails "." "HEAD" _ "wip\n" "" rfl rfl rfl
